import Mathlib

/-!
Verification of the PLONKish mock-checking core and the example circuits
(`example1.rs`, `example2.rs`, `pyth.rs`) of the 0xParcCircuits repository.

The repository's own source files are client circuits written against the
halo2 core (constraint-system builder, simple layouter, mock checker).  That
core is not part of the repository's sources, so it is modelled here from the
specification (spec.md §§3-4): columns, selectors, expressions, gates, the
Simple layout strategy with its sequential region placement, the copy
constraint (permutation) bookkeeping and the evaluation algorithm.  The three
example circuits themselves are translated directly from the Rust sources.
-/

/-- Modelled from the spec: the kind of a column — advice columns hold private
witness values, instance columns hold public inputs, fixed columns hold
constants baked in at configure time. -/
inductive ColumnKind where
  | Advice
  | Instance
  | Fixed
deriving DecidableEq, Repr

/-- Modelled from the spec: a column is a kind together with a unique index
(indices are allocated per kind by the builder, mirroring halo2). -/
structure Column where
  kind : ColumnKind
  index : Nat
deriving DecidableEq, Repr

/-- Modelled from the spec: a cell is the addressable unit of the table — a
column together with an absolute row. -/
structure Cell where
  col : Column
  row : Nat
deriving DecidableEq, Repr

/-- Modelled from the spec: an expression tree over constants, selector
queries and column queries (with an integer row rotation), closed under
addition, subtraction and multiplication. -/
inductive Expression (F : Type) where
  | const (c : F)
  | selectorQuery (s : Nat)
  | columnQuery (col : Column) (rot : Int)
  | add (a b : Expression F)
  | sub (a b : Expression F)
  | mul (a b : Expression F)
deriving DecidableEq, Repr

/-- Modelled from the spec: a gate is a named list of expressions; it is
satisfied at a row iff every expression evaluates to zero there.  The gate's
selector occurs inside the expressions as a selector query, exactly as the
example circuits build their gates via `query_selector`. -/
structure Gate (F : Type) where
  name : String
  exprs : List (Expression F)
deriving DecidableEq, Repr

/-- Modelled from the spec: the immutable output of the configure phase —
column counts, the set of equality-enabled columns, and the registered
gates. -/
structure ConstraintSystem (F : Type) where
  numAdvice : Nat
  numInstance : Nat
  numFixed : Nat
  numSelectors : Nat
  equalityEnabled : List Column
  gates : List (Gate F)
deriving DecidableEq, Repr

/-- Modelled from the spec: the materialized grid (row-by-column optional
field values) together with the selector activations, read-only for the
evaluator.  Cells are stored as an association list in assignment order;
reading an unset cell yields none rather than a default value.  There is a
single instance column in every example circuit, whose values are the
public-input vector, so instance cells are not stored here. -/
structure AssignmentTable (F : Type) where
  rowCount : Nat
  cells : List (Cell × F)
  selectorsOn : List (Nat × Nat)
deriving DecidableEq, Repr

/-- Modelled from the spec: look up an assigned cell in the table;
unassigned cells read as none. -/
def lookupCell {F : Type} (cells : List (Cell × F)) (c : Cell) : Option F :=
  match cells.find? (fun p => p.1 == c) with
  | some p => some p.2
  | none => none

/-- Modelled from the spec: the value of a cell as seen by the evaluator —
instance cells read the public-input vector, advice and fixed cells read the
assignment table. -/
def cellValue {F : Type} (t : AssignmentTable F) (pub : List F) (c : Cell) : Option F :=
  match c.col.kind with
  | ColumnKind.Instance => pub.get? c.row
  | _ => lookupCell t.cells c

/-- Modelled from the spec: evaluation of an expression at a row.  A column
query resolves the rotation cyclically over the declared row count; a
selector query contributes exactly 0 or 1.  An unassigned cell propagates as
none, except that a multiplication one of whose factors is a known zero is
zero in the field regardless of the other factor (`0 * x = 0`), which is what
makes selector gating purely algebraic. -/
def evalE {F : Type} [CommRing F] [DecidableEq F]
    (t : AssignmentTable F) (pub : List F) (r : Nat) : Expression F → Option F
  | Expression.const c => some c
  | Expression.selectorQuery s =>
      some (if t.selectorsOn.contains (s, r) then 1 else 0)
  | Expression.columnQuery col rot =>
      cellValue t pub ⟨col, (((r : Int) + rot).emod (t.rowCount : Int)).toNat⟩
  | Expression.add a b =>
      match evalE t pub r a, evalE t pub r b with
      | some x, some y => some (x + y)
      | _, _ => none
  | Expression.sub a b =>
      match evalE t pub r a, evalE t pub r b with
      | some x, some y => some (x - y)
      | _, _ => none
  | Expression.mul a b =>
      match evalE t pub r a, evalE t pub r b with
      | some x, some y => some (x * y)
      | some x, none => if x = 0 then some 0 else none
      | none, some y => if y = 0 then some 0 else none
      | none, none => none

/-- Modelled from the spec: a check-time violation — a gate expression that
is nonzero at a row, a cell with no value where one is needed, or a
permutation equivalence class holding unequal or unknown values. -/
inductive Violation where
  | constraintNotSatisfied (gate : String) (row : Nat) (exprIdx : Nat)
  | unassignedCell (gate : String) (row : Nat) (exprIdx : Nat)
  | permutationViolation (cls : List Cell)
deriving DecidableEq, Repr

/-- Modelled from the spec: the verdict of the mock checker. -/
inductive Verdict where
  | satisfied
  | failed (violations : List Violation)
  | instanceLengthMismatch
deriving DecidableEq, Repr

/-- Modelled from the spec: the equivalence class of a cell in the current
partition (a cell not yet mentioned is alone in its class). -/
def findClass (classes : List (List Cell)) (c : Cell) : List Cell :=
  match classes.find? (fun cl => decide (c ∈ cl)) with
  | some cl => cl
  | none => [c]

/-- Modelled from the spec: merge the equivalence classes of two cells
(union of the permutation index). -/
def unionCells (classes : List (List Cell)) (a b : Cell) : List (List Cell) :=
  let ca := findClass classes a
  let cb := findClass classes b
  if ca = cb then classes
  else (ca ++ cb) :: classes.filter (fun cl => decide (¬(cl = ca ∨ cl = cb)))

/-- Modelled from the spec: the permutation index — the partition of cells
into equivalence classes obtained by replaying every recorded copy
constraint in order. -/
def buildClasses (copies : List (Cell × Cell)) : List (List Cell) :=
  copies.foldl (fun cls p => unionCells cls p.1 p.2) []

/-- Modelled from the spec: a permutation equivalence class passes iff all
its member cells hold equal, known values; otherwise the whole class is
reported as a single violation. -/
def classViolation {F : Type} [DecidableEq F]
    (t : AssignmentTable F) (pub : List F) (cl : List Cell) : Option Violation :=
  match cl with
  | [] => none
  | c0 :: rest =>
      match cellValue t pub c0 with
      | none => some (Violation.permutationViolation cl)
      | some v =>
          if rest.all (fun c => decide (cellValue t pub c = some v)) then none
          else some (Violation.permutationViolation cl)

/-- Modelled from the spec: check every equivalence class of the permutation
index built from the recorded copy constraints. -/
def permViolations {F : Type} [DecidableEq F]
    (t : AssignmentTable F) (pub : List F) (copies : List (Cell × Cell)) : List Violation :=
  (buildClasses copies).filterMap (classViolation t pub)

/-- Modelled from the spec: the violations contributed by one gate at one
row — every expression of the gate is evaluated, a none result records an
unassigned-cell violation and a nonzero result records a
constraint-not-satisfied violation. -/
def exprViolations {F : Type} [CommRing F] [DecidableEq F]
    (t : AssignmentTable F) (pub : List F) (gname : String) (r : Nat)
    (es : List (Expression F)) : List Violation :=
  es.enum.filterMap (fun ie =>
    match evalE t pub r ie.2 with
    | none => some (Violation.unassignedCell gname r ie.1)
    | some v =>
        if v = 0 then none else some (Violation.constraintNotSatisfied gname r ie.1))

/-- Modelled from the spec: evaluate every gate at every row of the table;
evaluation does not stop at the first violation. -/
def gateViolations {F : Type} [CommRing F] [DecidableEq F]
    (cs : ConstraintSystem F) (t : AssignmentTable F) (pub : List F) : List Violation :=
  cs.gates.flatMap (fun g =>
    (List.range t.rowCount).flatMap (fun r => exprViolations t pub g.name r g.exprs))

/-- Modelled from the spec: one operation recorded by a region callback, with
rows relative to the region; `copyAdvice` names its (absolute) source cell,
which the circuit obtained from an earlier assignment. -/
inductive RegionOp (F : Type) where
  | enableSelector (s : Nat) (row : Nat)
  | assignAdvice (col : Column) (row : Nat) (v : F)
  | assignFromInstance (instCol : Column) (instRow : Nat) (col : Column) (row : Nat)
  | copyAdvice (src : Cell) (col : Column) (row : Nat)
deriving DecidableEq, Repr

/-- Modelled from the spec: the number of rows a region operation consumes. -/
def opHeight {F : Type} : RegionOp F → Nat
  | RegionOp.enableSelector _ r => r + 1
  | RegionOp.assignAdvice _ r _ => r + 1
  | RegionOp.assignFromInstance _ _ _ r => r + 1
  | RegionOp.copyAdvice _ _ r => r + 1

/-- Modelled from the spec: the height of a region — one past the largest
relative row any of its operations touches. -/
def regionHeight {F : Type} (ops : List (RegionOp F)) : Nat :=
  ops.foldl (fun h op => max h (opHeight op)) 0

/-- Modelled from the spec: the synthesis state threaded through a circuit's
`synthesize` — the layouter's next free row, the committed regions (offset
and height, in request order), the assignment table contents, the selector
activations, the recorded copy constraints and the public-input bindings. -/
structure SynthState (F : Type) where
  nextRow : Nat
  regions : List (Nat × Nat)
  cells : List (Cell × F)
  selectorsOn : List (Nat × Nat)
  copies : List (Cell × Cell)
  bindings : List (Cell × Cell)
deriving DecidableEq, Repr

/-- Modelled from the spec: the fresh synthesis state — one witness, one
table. -/
def initState {F : Type} : SynthState F :=
  ⟨0, [], [], [], [], []⟩

/-- Modelled from the spec: commit one region operation at the region's
absolute offset.  `assignAdvice` writes a value and records no copy
constraint; `assignFromInstance` writes the referenced public input and
records a copy constraint between the instance cell and the new advice cell;
`copyAdvice` records a copy constraint and assigns the source's value for
bookkeeping; `enableSelector` activates the selector at the absolute row. -/
def applyOp {F : Type} (pub : List F) (offset : Nat) (st : SynthState F) :
    RegionOp F → SynthState F
  | RegionOp.enableSelector s r =>
      { st with selectorsOn := st.selectorsOn ++ [(s, offset + r)] }
  | RegionOp.assignAdvice col r v =>
      { st with cells := st.cells ++ [(⟨col, offset + r⟩, v)] }
  | RegionOp.assignFromInstance ic ir col r =>
      let target : Cell := ⟨col, offset + r⟩
      let cells' :=
        match pub.get? ir with
        | some v => st.cells ++ [(target, v)]
        | none => st.cells
      { st with cells := cells', copies := st.copies ++ [(⟨ic, ir⟩, target)] }
  | RegionOp.copyAdvice src col r =>
      let target : Cell := ⟨col, offset + r⟩
      let cells' :=
        match lookupCell st.cells src with
        | some v => st.cells ++ [(target, v)]
        | none => st.cells
      { st with cells := cells', copies := st.copies ++ [(src, target)] }

/-- Modelled from the spec: the Simple layout strategy — a region is placed
at the next unused row offset, the callback (a function of that offset,
mirroring the region handle bound to it) is committed, and the cursor
advances by the region's height.  Returns the new state and the region's
offset. -/
def assignRegion {F : Type} (pub : List F) (f : Nat → List (RegionOp F))
    (st : SynthState F) : SynthState F × Nat :=
  let offset := st.nextRow
  let ops := f offset
  let st' := ops.foldl (applyOp pub offset) st
  ({ st' with
      nextRow := offset + regionHeight ops
      regions := st.regions ++ [(offset, regionHeight ops)] }, offset)

/-- Modelled from the spec: record a public-input binding between an
internal cell and a designated instance cell. -/
def constrainInstance {F : Type} (st : SynthState F) (c : Cell) (ic : Column)
    (ir : Nat) : SynthState F :=
  { st with bindings := st.bindings ++ [(c, ⟨ic, ir⟩)] }

/-- Modelled from the spec: a sequence of `assignRegion` requests, committed
in request order. -/
def runRegions {F : Type} (pub : List F) (fs : List (Nat → List (RegionOp F)))
    (st : SynthState F) : SynthState F :=
  fs.foldl (fun s f => (assignRegion pub f s).1) st

/-- Modelled from the spec: the mock checker.  Public-input length is
validated against every binding's referenced instance row (fatal on
mismatch); then every gate is evaluated at every row and every permutation
class is checked, and the verdict is satisfied iff no violation was
recorded. -/
def runCheck {F : Type} [CommRing F] [DecidableEq F] (cs : ConstraintSystem F)
    (rowCount : Nat) (st : SynthState F) (pub : List F) : Verdict :=
  if st.bindings.all (fun p => p.2.row < pub.length) then
    let t : AssignmentTable F := ⟨rowCount, st.cells, st.selectorsOn⟩
    match gateViolations cs t pub ++ permViolations t pub (st.copies ++ st.bindings) with
    | [] => Verdict.satisfied
    | vs => Verdict.failed vs
  else Verdict.instanceLengthMismatch

/-- The advice column `col_a` (first advice column allocated). -/
def colA : Column := ⟨ColumnKind.Advice, 0⟩

/-- The advice column `col_b` (second advice column allocated). -/
def colB : Column := ⟨ColumnKind.Advice, 1⟩

/-- The advice column `col_c` (third advice column allocated). -/
def colC : Column := ⟨ColumnKind.Advice, 2⟩

/-- The instance column (public inputs). -/
def instCol : Column := ⟨ColumnKind.Instance, 0⟩

/-- The constraint system produced by `FibonacciChip::configure` in
`example1.rs`: three advice columns, one selector, one instance column, all
equality-enabled, and the gate `s * (a + b - c)` with current-row
rotations. -/
def fib1CS (F : Type) : ConstraintSystem F :=
  { numAdvice := 3, numInstance := 1, numFixed := 0, numSelectors := 1,
    equalityEnabled := [colA, colB, colC, instCol],
    gates := [⟨"add",
      [Expression.mul (Expression.selectorQuery 0)
        (Expression.sub
          (Expression.add (Expression.columnQuery colA 0) (Expression.columnQuery colB 0))
          (Expression.columnQuery colC 0))]⟩] }

/-- An assigned cell as returned to the circuit: its location and its
value. -/
structure AssignedCell (F : Type) where
  cell : Cell
  val : F
deriving DecidableEq, Repr

/-- `FibonacciChip::assign_first_row` of `example1.rs`: one region that
enables the selector at row 0, copies instance rows 0 and 1 into `col_a` and
`col_b`, and witnesses their sum into `col_c` with no copy constraint. -/
def fib1AssignFirstRow {F : Type} [CommRing F] (pub : List F) (st : SynthState F) :
    SynthState F × AssignedCell F × AssignedCell F × AssignedCell F :=
  let aVal := pub.getD 0 0
  let bVal := pub.getD 1 0
  let (st', off) := assignRegion pub (fun _ =>
    [RegionOp.enableSelector 0 0,
     RegionOp.assignFromInstance instCol 0 colA 0,
     RegionOp.assignFromInstance instCol 1 colB 0,
     RegionOp.assignAdvice colC 0 (aVal + bVal)]) st
  (st', ⟨⟨colA, off⟩, aVal⟩, ⟨⟨colB, off⟩, bVal⟩, ⟨⟨colC, off⟩, aVal + bVal⟩)

/-- `FibonacciChip::assign_row` of `example1.rs`: one region that enables
the selector at row 0, copies the previous row's `b` and `c` cells into
`col_a` and `col_b`, and witnesses their sum into `col_c`. -/
def fib1AssignRow {F : Type} [CommRing F] (pub : List F)
    (prevB prevC : AssignedCell F) (st : SynthState F) :
    SynthState F × AssignedCell F :=
  let (st', off) := assignRegion pub (fun _ =>
    [RegionOp.enableSelector 0 0,
     RegionOp.copyAdvice prevB.cell colA 0,
     RegionOp.copyAdvice prevC.cell colB 0,
     RegionOp.assignAdvice colC 0 (prevB.val + prevC.val)]) st
  (st', ⟨⟨colC, off⟩, prevB.val + prevC.val⟩)

/-- The `for _i in 3..10` loop of `MyCircuit::synthesize` in `example1.rs`,
threading the previous row's `b` and `c` cells into each next region. -/
def fib1Loop {F : Type} [CommRing F] (pub : List F) :
    Nat → AssignedCell F → AssignedCell F → SynthState F →
    SynthState F × AssignedCell F
  | 0, _prevB, prevC, st => (st, prevC)
  | n + 1, prevB, prevC, st =>
      let (st', c) := fib1AssignRow pub prevB prevC st
      fib1Loop pub n prevC c st'

/-- `MyCircuit::synthesize` of `example1.rs`: the first-row region, seven
next-row regions, then `expose_public` binding the final `c` cell to
instance row 2. -/
def fib1Synthesize {F : Type} [CommRing F] (pub : List F) : SynthState F :=
  let (st1, _a, b0, c0) := fib1AssignFirstRow pub initState
  let (st2, outCell) := fib1Loop pub 7 b0 c0 st1
  constrainInstance st2 outCell.cell instCol 2

/-- The `fibonacci_example1` test of `example1.rs` runs the mock checker at
`k = 8`, i.e. over `2^8 = 256` rows. -/
def fib1Check {F : Type} [CommRing F] [DecidableEq F] (pub : List F) : Verdict :=
  runCheck (fib1CS F) 256 (fib1Synthesize pub) pub

/-- The modulus of the pasta `Fp` field (the Pallas base field) used by all
three example circuits. -/
def pastaP : Nat :=
  28948022309329048855892746252171976963363056481941560715954676764349967630337

/-- The constraint system produced by `FiboChip::configure` in
`example2.rs`: one advice column, one selector, one instance column, the
advice and instance columns equality-enabled, and the gate
`s * (a + b - c)` where `a`, `b`, `c` query the advice column at rotations
0, 1 and 2. -/
def fib2CS (F : Type) : ConstraintSystem F :=
  { numAdvice := 1, numInstance := 1, numFixed := 0, numSelectors := 1,
    equalityEnabled := [colA, instCol],
    gates := [⟨"add",
      [Expression.mul (Expression.selectorQuery 0)
        (Expression.sub
          (Expression.add (Expression.columnQuery colA 0) (Expression.columnQuery colA 1))
          (Expression.columnQuery colA 2))]⟩] }

/-- The `for row in 2..nrows` loop of `FiboChip::assign` in `example2.rs`:
at each row the selector is enabled only while `row < nrows - 2`, the sum of
the two previous cells is witnessed, and the threaded cells shift.  Cells
are tracked as (relative row, value); the fuel argument counts the remaining
iterations. -/
def fib2Loop {F : Type} [CommRing F] (nrows : Nat) :
    Nat → Nat → (Nat × F) → (Nat × F) → List (RegionOp F) × (Nat × F)
  | 0, _row, _aC, bC => ([], bC)
  | fuel + 1, row, aC, bC =>
      let selOps : List (RegionOp F) :=
        if row < nrows - 2 then [RegionOp.enableSelector 0 row] else []
      let cVal := aC.2 + bC.2
      let (rest, out) := fib2Loop nrows fuel (row + 1) bC (row, cVal)
      (selOps ++ RegionOp.assignAdvice colA row cVal :: rest, out)

/-- `FiboChip::assign` of `example2.rs`: a single region holding the whole
table — the selector is enabled at rows 0 and 1, instance rows 0 and 1 are
copied into advice rows 0 and 1, then the loop fills rows `2 .. nrows`.
Returns the final threaded cell. -/
def fib2Assign {F : Type} [CommRing F] (pub : List F) (nrows : Nat)
    (st : SynthState F) : SynthState F × AssignedCell F :=
  let aVal := pub.getD 0 0
  let bVal := pub.getD 1 0
  let (loopOps, out) := fib2Loop (F := F) nrows (nrows - 2) 2 (0, aVal) (1, bVal)
  let (st', off) := assignRegion pub (fun _ =>
    [RegionOp.enableSelector 0 0,
     RegionOp.enableSelector 0 1,
     RegionOp.assignFromInstance instCol 0 colA 0,
     RegionOp.assignFromInstance instCol 1 colA 1] ++ loopOps) st
  (st', ⟨⟨colA, off + out.1⟩, out.2⟩)

/-- `MyCircuit::synthesize` of `example2.rs`: `assign` with `nrows = 10`
followed by `expose_public` binding the returned cell to instance row 2. -/
def fib2Synthesize {F : Type} [CommRing F] (pub : List F) : SynthState F :=
  let (st, outCell) := fib2Assign pub 10 initState
  constrainInstance st outCell.cell instCol 2

/-- The `test_example2` test of `example2.rs` runs the mock checker at
`k = 4`, i.e. over `2^4 = 16` rows. -/
def fib2Check {F : Type} [CommRing F] [DecidableEq F] (pub : List F) : Verdict :=
  runCheck (fib2CS F) 16 (fib2Synthesize pub) pub

/-- The constraint system produced by `pythChip::configure` in `pyth.rs`:
three advice columns, the addition selector (index 0) and the multiplication
selector (index 1), one instance column, all columns equality-enabled, and
the gates `s_add * (a + b - c)` and `s_mul * (a * b - c)` with current-row
rotations. -/
def pythCS (F : Type) : ConstraintSystem F :=
  { numAdvice := 3, numInstance := 1, numFixed := 0, numSelectors := 2,
    equalityEnabled := [colA, colB, colC, instCol],
    gates :=
      [⟨"add",
        [Expression.mul (Expression.selectorQuery 0)
          (Expression.sub
            (Expression.add (Expression.columnQuery colA 0) (Expression.columnQuery colB 0))
            (Expression.columnQuery colC 0))]⟩,
       ⟨"multiply",
        [Expression.mul (Expression.selectorQuery 1)
          (Expression.sub
            (Expression.mul (Expression.columnQuery colA 0) (Expression.columnQuery colB 0))
            (Expression.columnQuery colC 0))]⟩] }

/-- `pythChip::assign_all` of `pyth.rs`: a single region; for each public
input `i` (rows 0-2) the multiplication selector is enabled, instance row
`i` is copied into `col_a`, that cell is copied into `col_b`, and its square
is witnessed into `col_c`; at row 3 the addition selector is enabled and the
three squares are copied into `col_a`, `col_b`, `col_c`.  The region
callback sees its offset, so the within-region copy sources are expressed
relative to it.  Returns the third square's cell. -/
def pythAssignAll {F : Type} [CommRing F] (pub : List F) (st : SynthState F) :
    SynthState F × AssignedCell F :=
  let aVal := pub.getD 0 0
  let bVal := pub.getD 1 0
  let cVal := pub.getD 2 0
  let (st', off) := assignRegion pub (fun o =>
    [RegionOp.enableSelector 1 0,
     RegionOp.assignFromInstance instCol 0 colA 0,
     RegionOp.copyAdvice ⟨colA, o⟩ colB 0,
     RegionOp.assignAdvice colC 0 (aVal * aVal),
     RegionOp.enableSelector 1 1,
     RegionOp.assignFromInstance instCol 1 colA 1,
     RegionOp.copyAdvice ⟨colA, o + 1⟩ colB 1,
     RegionOp.assignAdvice colC 1 (bVal * bVal),
     RegionOp.enableSelector 1 2,
     RegionOp.assignFromInstance instCol 2 colA 2,
     RegionOp.copyAdvice ⟨colA, o + 2⟩ colB 2,
     RegionOp.assignAdvice colC 2 (cVal * cVal),
     RegionOp.enableSelector 0 3,
     RegionOp.copyAdvice ⟨colC, o⟩ colA 3,
     RegionOp.copyAdvice ⟨colC, o + 1⟩ colB 3,
     RegionOp.copyAdvice ⟨colC, o + 2⟩ colC 3]) st
  (st', ⟨⟨colC, off + 2⟩, cVal * cVal⟩)

/-- `MyCircuit::synthesize` of `pyth.rs`: `assign_all` alone — the returned
cell is discarded and `expose_public` is commented out, so no public-input
binding is recorded. -/
def pythSynthesize {F : Type} [CommRing F] (pub : List F) : SynthState F :=
  let (st, _outCell) := pythAssignAll pub initState
  st

/-- The `test_example2` test of `pyth.rs` runs the mock checker at `k = 4`,
i.e. over `2^4 = 16` rows. -/
def pythCheck {F : Type} [CommRing F] [DecidableEq F] (pub : List F) : Verdict :=
  runCheck (pythCS F) 16 (pythSynthesize pub) pub

/-- The selector index at the head of a selector-gated gate expression. -/
def topSelector {F : Type} : Expression F → Nat
  | Expression.mul (Expression.selectorQuery s) _ => s
  | _ => 0

/-- The expression a selector-gated gate expression multiplies its selector
with. -/
def gateBody {F : Type} : Expression F → Expression F
  | Expression.mul _ body => body
  | e => e

/-- The cells an expression queries when evaluated at row `r` of a table of
`n` rows, with rotations resolved exactly as `evalE` resolves them. -/
def queriedCells {F : Type} (n r : Nat) : Expression F → List Cell
  | Expression.const _ => []
  | Expression.selectorQuery _ => []
  | Expression.columnQuery col rot => [⟨col, (((r : Int) + rot).emod (n : Int)).toNat⟩]
  | Expression.add a b => queriedCells n r a ++ queriedCells n r b
  | Expression.sub a b => queriedCells n r a ++ queriedCells n r b
  | Expression.mul a b => queriedCells n r a ++ queriedCells n r b

/-- Membership of an absolute row in a committed region given as (offset,
height). -/
def rowInRegion (reg : Nat × Nat) (r : Nat) : Prop :=
  reg.1 ≤ r ∧ r < reg.1 + reg.2

set_option maxRecDepth 1000000 in
/-- Claim C1: with public inputs `[1, 1, 55]` — the 10-term recurrence
`f(0) = 1`, `f(1) = 1`, `f(i) = f(i-1) + f(i-2)` with the result exposed at
public-input row 2 — the check returns the Satisfied verdict for both the
3-column Fibonacci circuit of `example1.rs` (at `k = 8`) and the
single-column variant of `example2.rs` (at `k = 4`). -/
theorem claim_C1 :
    fib1Check (F := ZMod pastaP) [1, 1, 55] = Verdict.satisfied ∧
    fib2Check (F := ZMod pastaP) [1, 1, 55] = Verdict.satisfied := by
  exact ⟨by decide, by decide⟩

set_option maxRecDepth 1000000 in
/-- Claim C2: perturbing public-input row 2 to `56` makes the check on the
`example1.rs` circuit return Failed with exactly one violation, a
permutation violation whose class is exactly the exposed-output binding
created by `expose_public` — the final `col_c` cell at row 7 against
instance row 2 — and no violation at any earlier interior row. -/
theorem claim_C2 :
    fib1Check (F := ZMod pastaP) [1, 1, 56]
      = Verdict.failed [Violation.permutationViolation [⟨colC, 7⟩, ⟨instCol, 2⟩]] := by
  decide

/-- Claim C3: the Pythagorean-triple circuit of `pyth.rs` is satisfied on public
inputs `[5, 12, 13]` (squares 25, 144, 169 at the multiply-gated rows 0-2,
sum checked at the addition-gated row 3), and on `[5, 12, 14]` the check
fails with a single constraint-not-satisfied violation at the addition
gate's row 3. -/
theorem claim_C3 :
    pythCheck (F := ZMod pastaP) [5, 12, 13] = Verdict.satisfied ∧
    pythCheck (F := ZMod pastaP) [5, 12, 14]
      = Verdict.failed [Violation.constraintNotSatisfied "add" 3 0] := by
  exact ⟨by decide, by decide⟩

/-- Claim C8: the check is a pure, deterministic function of the constraint
system, the synthesized state and the public inputs, so running it twice on
the same triple yields identical verdicts and an identical violation set. -/
theorem claim_C8 {F : Type} [CommRing F] [DecidableEq F]
    (cs : ConstraintSystem F) (rowCount : Nat) (st : SynthState F) (pub : List F) :
    runCheck cs rowCount st pub = runCheck cs rowCount st pub ∧
    gateViolations cs ⟨rowCount, st.cells, st.selectorsOn⟩ pub
        ++ permViolations ⟨rowCount, st.cells, st.selectorsOn⟩ pub (st.copies ++ st.bindings)
      = gateViolations cs ⟨rowCount, st.cells, st.selectorsOn⟩ pub
        ++ permViolations ⟨rowCount, st.cells, st.selectorsOn⟩ pub (st.copies ++ st.bindings) :=
  ⟨rfl, rfl⟩

/-- Claim C9: in `example2.rs`'s `assign` with `nrows = 10`, the selector is
enabled exactly at region rows 0 through 7 (`nrows - 3`) and disabled at
rows 8 and 9, and at every selector-active row the gate's rotations 0, 1, 2
reference only the advice cells at rows `r`, `r+1`, `r+2`, all of which are
assigned and none of which wraps past row `nrows - 1`. -/
theorem claim_C9 :
    (fib2Synthesize (F := ZMod pastaP) [1, 1, 55]).selectorsOn
      = [(0, 0), (0, 1), (0, 2), (0, 3), (0, 4), (0, 5), (0, 6), (0, 7)] ∧
    (∀ p ∈ (fib2Synthesize (F := ZMod pastaP) [1, 1, 55]).selectorsOn,
      ∀ g ∈ (fib2CS (ZMod pastaP)).gates, ∀ e ∈ g.exprs,
        ∀ c ∈ queriedCells 16 p.2 e,
          (lookupCell (fib2Synthesize (F := ZMod pastaP) [1, 1, 55]).cells c).isSome = true ∧
          (c.row = p.2 ∨ c.row = p.2 + 1 ∨ c.row = p.2 + 2) ∧ c.row ≤ 9) := by
  exact ⟨by decide, by decide⟩

/-- Witness for C9: the bounded clause of C9 applied at the selector activation
`(0, 0)`, the `add` gate, and the current-row query, which resolves to the
assigned advice cell at row 0. -/
theorem claim_C9_witness :
    (lookupCell (fib2Synthesize (F := ZMod pastaP) [1, 1, 55]).cells
        (⟨colA, 0⟩ : Cell)).isSome = true ∧
    ((⟨colA, 0⟩ : Cell).row = 0 ∨ (⟨colA, 0⟩ : Cell).row = 0 + 1 ∨
      (⟨colA, 0⟩ : Cell).row = 0 + 2) ∧ (⟨colA, 0⟩ : Cell).row ≤ 9 :=
  claim_C9.2 (0, 0) (by decide)
    ⟨"add",
      [Expression.mul (Expression.selectorQuery 0)
        (Expression.sub
          (Expression.add (Expression.columnQuery colA 0) (Expression.columnQuery colA 1))
          (Expression.columnQuery colA 2))]⟩ (by decide)
    (Expression.mul (Expression.selectorQuery 0)
      (Expression.sub
        (Expression.add (Expression.columnQuery colA 0) (Expression.columnQuery colA 1))
        (Expression.columnQuery colA 2))) (by decide)
    ⟨colA, 0⟩ (by decide)

/-- Claim C10: `pyth.rs`'s `synthesize` records no public-input binding
(`expose_public` is commented out and `constrain_instance` never called);
the instance column enters only through the three
`assign_advice_from_instance` copies at region rows 0, 1, 2 (plus the
advice-to-advice copies), so a wrong third public input is detected by the
addition gate at row 3, not by a permutation check on an exposed output. -/
theorem claim_C10 :
    (pythSynthesize (F := ZMod pastaP) [5, 12, 14]).bindings = [] ∧
    (pythSynthesize (F := ZMod pastaP) [5, 12, 14]).copies
      = [(⟨instCol, 0⟩, ⟨colA, 0⟩), (⟨colA, 0⟩, ⟨colB, 0⟩),
         (⟨instCol, 1⟩, ⟨colA, 1⟩), (⟨colA, 1⟩, ⟨colB, 1⟩),
         (⟨instCol, 2⟩, ⟨colA, 2⟩), (⟨colA, 2⟩, ⟨colB, 2⟩),
         (⟨colC, 0⟩, ⟨colA, 3⟩), (⟨colC, 1⟩, ⟨colB, 3⟩), (⟨colC, 2⟩, ⟨colC, 3⟩)] ∧
    pythCheck (F := ZMod pastaP) [5, 12, 14]
      = Verdict.failed [Violation.constraintNotSatisfied "add" 3 0] := by
  exact ⟨by decide, by decide, by decide⟩

/-- Claim C7: `assignAdvice` writes its value into the table and records no copy
constraint and no binding, while `assignFromInstance` records a copy
constraint between the instance cell and the target advice cell and writes
the referenced public input into the target; concretely, in the first
region of `example1.rs` the `a` and `b` cells are copy-constrained to
instance rows 0 and 1 while the `c` cell written by `assign_advice` appears
in no equivalence class created by that call. -/
theorem claim_C7 :
    (∀ (F : Type) (pub : List F) (off : Nat) (st : SynthState F)
        (col : Column) (r : Nat) (v : F),
      (applyOp pub off st (RegionOp.assignAdvice col r v)).cells
          = st.cells ++ [(⟨col, off + r⟩, v)] ∧
      (applyOp pub off st (RegionOp.assignAdvice col r v)).copies = st.copies ∧
      (applyOp pub off st (RegionOp.assignAdvice col r v)).bindings = st.bindings) ∧
    (∀ (F : Type) (pub : List F) (off : Nat) (st : SynthState F)
        (ic : Column) (ir : Nat) (col : Column) (r : Nat),
      (applyOp pub off st (RegionOp.assignFromInstance ic ir col r)).copies
          = st.copies ++ [(⟨ic, ir⟩, ⟨col, off + r⟩)] ∧
      (applyOp pub off st (RegionOp.assignFromInstance ic ir col r)).bindings
          = st.bindings ∧
      (∀ v, pub.get? ir = some v →
        (applyOp pub off st (RegionOp.assignFromInstance ic ir col r)).cells
            = st.cells ++ [(⟨col, off + r⟩, v)])) ∧
    ((fib1AssignFirstRow (F := ZMod pastaP) [1, 1, 55] initState).1.cells
        = [(⟨colA, 0⟩, 1), (⟨colB, 0⟩, 1), (⟨colC, 0⟩, 2)] ∧
     (fib1AssignFirstRow (F := ZMod pastaP) [1, 1, 55] initState).1.copies
        = [(⟨instCol, 0⟩, ⟨colA, 0⟩), (⟨instCol, 1⟩, ⟨colB, 0⟩)] ∧
     (∀ cl ∈ buildClasses (fib1AssignFirstRow (F := ZMod pastaP) [1, 1, 55] initState).1.copies,
        (⟨colC, 0⟩ : Cell) ∉ cl ∧
        ((⟨colA, 0⟩ : Cell) ∈ cl → (⟨instCol, 0⟩ : Cell) ∈ cl) ∧
        ((⟨colB, 0⟩ : Cell) ∈ cl → (⟨instCol, 1⟩ : Cell) ∈ cl))) := by
  refine ⟨fun F pub off st col r v => ⟨rfl, rfl, rfl⟩,
          fun F pub off st ic ir col r => ⟨rfl, rfl, fun v hv => ?_⟩,
          by decide, by decide, by decide⟩
  simp only [applyOp, hv]

/-- Witness for C7: the hypothesis-bearing clause of C7 applied at a concrete
instance-cell copy. -/
theorem claim_C7_witness :
    (applyOp [(5 : ℤ)] 0 initState (RegionOp.assignFromInstance instCol 0 colA 0)).cells
      = initState.cells ++ [(⟨colA, 0 + 0⟩, (5 : ℤ))] :=
  (claim_C7.2.1 ℤ [(5 : ℤ)] 0 initState instCol 0 colA 0).2.2 5 rfl

/-- Evaluation of a selector-gated expression at a row where the selector is
not enabled is zero, whatever the table holds at that row: the selector
query contributes the field's 0 and `0 * x = 0`, including when the other
factor is an unassigned cell. -/
theorem evalE_gated {F : Type} [CommRing F] [DecidableEq F]
    (t : AssignmentTable F) (pub : List F) (r s : Nat) (body : Expression F)
    (h : t.selectorsOn.contains (s, r) = false) :
    evalE t pub r (Expression.mul (Expression.selectorQuery s) body) = some 0 := by
  have hmem : (s, r) ∉ t.selectorsOn := by simpa using h
  cases hb : evalE t pub r body with
  | none => simp [evalE, hmem, hb]
  | some y => simp [evalE, hmem, hb]

/-- Claim C4: every gate of the three circuits has the form
`selector * expression`; at any row where that selector is disabled the gate
expression evaluates to zero for arbitrary — even unassigned — values in
the queried columns, purely because `0 * x = 0` in the field; moreover a
selector query only ever contributes 0 or 1 to a gate expression. -/
theorem claim_C4 {F : Type} [CommRing F] [DecidableEq F] :
    (∀ cs ∈ [fib1CS F, fib2CS F, pythCS F], ∀ g ∈ cs.gates, ∀ e ∈ g.exprs,
      e = Expression.mul (Expression.selectorQuery (topSelector e)) (gateBody e) ∧
      ∀ (t : AssignmentTable F) (pub : List F) (r : Nat),
        t.selectorsOn.contains (topSelector e, r) = false →
        evalE t pub r e = some 0) ∧
    (∀ (t : AssignmentTable F) (pub : List F) (r s : Nat),
      evalE t pub r (Expression.selectorQuery s) = some 0 ∨
      evalE t pub r (Expression.selectorQuery s) = some 1) := by
  constructor
  · intro cs hcs g hg e he
    simp only [List.mem_cons, List.not_mem_nil, or_false] at hcs
    rcases hcs with rfl | rfl | rfl <;>
      (simp only [fib1CS, fib2CS, pythCS, List.mem_cons, List.not_mem_nil, or_false] at hg) <;>
      rcases hg with rfl | rfl <;>
      (simp only [List.mem_cons, List.not_mem_nil, or_false] at he) <;>
      subst he <;>
      exact ⟨rfl, fun t pub r h => evalE_gated t pub r _ _ h⟩
  · intro t pub r s
    by_cases h : (s, r) ∈ t.selectorsOn
    · right
      simp [evalE, h]
    · left
      simp [evalE, h]

/-- Witness for C4: the gated clause of C4 applied to the `add` gate of the
`example1.rs` circuit over an empty table, where no selector is enabled and
every advice cell is unassigned. -/
theorem claim_C4_witness :
    evalE (⟨256, [], []⟩ : AssignmentTable ℤ) [] 0
        (Expression.mul (Expression.selectorQuery 0)
          (Expression.sub
            (Expression.add (Expression.columnQuery colA 0) (Expression.columnQuery colB 0))
            (Expression.columnQuery colC 0)))
      = some 0 :=
  ((claim_C4 (F := ℤ)).1 (fib1CS ℤ) (by simp) ⟨"add",
      [Expression.mul (Expression.selectorQuery 0)
        (Expression.sub
          (Expression.add (Expression.columnQuery colA 0) (Expression.columnQuery colB 0))
          (Expression.columnQuery colC 0))]⟩ (by simp [fib1CS])
    (Expression.mul (Expression.selectorQuery 0)
      (Expression.sub
        (Expression.add (Expression.columnQuery colA 0) (Expression.columnQuery colB 0))
        (Expression.columnQuery colC 0))) (by simp)).2
    ⟨256, [], []⟩ [] 0 rfl

/-- Committing a region appends exactly one (offset, height) record at the
layouter's cursor and advances the cursor by the region's height. -/
theorem assignRegion_state {F : Type} (pub : List F) (f : Nat → List (RegionOp F))
    (st : SynthState F) :
    (assignRegion pub f st).1.regions
        = st.regions ++ [(st.nextRow, regionHeight (f st.nextRow))] ∧
    (assignRegion pub f st).1.nextRow = st.nextRow + regionHeight (f st.nextRow) :=
  ⟨rfl, rfl⟩

/-- Sequentially committing regions of uniform height `R` starting from any
state lays region `i` out at offset `nextRow + i * R`. -/
theorem runRegions_spec {F : Type} (pub : List F) (R : Nat) :
    ∀ (fs : List (Nat → List (RegionOp F))) (st : SynthState F),
      (∀ f ∈ fs, ∀ off, regionHeight (f off) = R) →
      (runRegions pub fs st).regions
          = st.regions ++ (List.range fs.length).map (fun i => (st.nextRow + i * R, R)) ∧
      (runRegions pub fs st).nextRow = st.nextRow + fs.length * R
  | [], st, _h => by simp [runRegions]
  | f :: fs, st, h => by
      have hf : regionHeight (f st.nextRow) = R := h f (List.mem_cons_self f fs) st.nextRow
      have hrest : ∀ g ∈ fs, ∀ off, regionHeight (g off) = R :=
        fun g hg => h g (List.mem_cons_of_mem f hg)
      have hstep := assignRegion_state pub f st
      have ih := runRegions_spec pub R fs (assignRegion pub f st).1 hrest
      have hrun : runRegions pub (f :: fs) st = runRegions pub fs (assignRegion pub f st).1 := rfl
      constructor
      · rw [hrun, ih.1, hstep.1, hstep.2, hf]
        have hfun : (fun i => (st.nextRow + R + i * R, R))
            = (fun i => (st.nextRow + (i + 1) * R, R)) := by
          funext i
          rw [Prod.mk.injEq, Nat.add_mul]
          refine ⟨by omega, rfl⟩
        rw [hfun, List.length_cons, List.range_succ_eq_map, List.map_cons, List.map_map]
        simp [Function.comp, List.append_assoc]
      · rw [hrun, ih.2, hstep.2, hf, List.length_cons, Nat.add_mul]
        omega

/-- Two height-`R` regions placed at offsets `i * R` and `j * R` with
`i < j` share no row. -/
theorem rangesDisjoint (R i j r : Nat) (hij : i < j)
    (h1 : i * R ≤ r ∧ r < i * R + R) (h2 : j * R ≤ r ∧ r < j * R + R) : False := by
  have hle : (i + 1) * R ≤ j * R := Nat.mul_le_mul_right R hij
  have hlt : r < (i + 1) * R := by rw [Nat.succ_mul]; exact h1.2
  exact absurd (lt_of_lt_of_le hlt hle) (not_lt.mpr h2.1)

/-- Claim C5: under the Simple layout strategy, `N` sequential region requests of
uniform height `R` place region `i` at absolute offset `i * R`, the row
ranges of distinct regions never intersect, and in particular the 8
height-1 regions created by `example1.rs`'s `synthesize` (one
`assign_first_row` call followed by 7 `assign_row` calls) occupy rows 0
through 7 in request order. -/
theorem claim_C5 {F : Type} [CommRing F] :
    (∀ (pub : List F) (fs : List (Nat → List (RegionOp F))) (R : Nat),
      (∀ f ∈ fs, ∀ off, regionHeight (f off) = R) →
      (runRegions pub fs initState).regions
          = (List.range fs.length).map (fun i => (i * R, R)) ∧
      (∀ i j r : Nat, i ≠ j →
        ¬(rowInRegion ((runRegions pub fs initState).regions.getD i (0, 0)) r ∧
          rowInRegion ((runRegions pub fs initState).regions.getD j (0, 0)) r))) ∧
    (∀ pub : List F, (fib1Synthesize pub).regions
        = [(0, 1), (1, 1), (2, 1), (3, 1), (4, 1), (5, 1), (6, 1), (7, 1)]) := by
  constructor
  · intro pub fs R h
    have hspec := runRegions_spec pub R fs initState h
    have hreg : (runRegions pub fs initState).regions
        = (List.range fs.length).map (fun i => (i * R, R)) := by
      simpa [initState] using hspec.1
    refine ⟨hreg, ?_⟩
    intro i j r hne hcontra
    have hlen : (runRegions pub fs initState).regions.length = fs.length := by
      rw [hreg]; simp
    have hget : ∀ k, k < fs.length →
        (runRegions pub fs initState).regions.getD k (0, 0) = (k * R, R) := by
      intro k hk
      rw [hreg, List.getD_eq_getElem _ _ (by simpa using hk)]
      simp
    have hout : ∀ k, fs.length ≤ k →
        (runRegions pub fs initState).regions.getD k (0, 0) = (0, 0) := by
      intro k hk
      exact List.getD_eq_default _ _ (by rw [hlen]; exact hk)
    by_cases hi : i < fs.length
    · by_cases hj : j < fs.length
      · rw [hget i hi, hget j hj] at hcontra
        rcases Nat.lt_or_ge i j with hij | hij
        · exact rangesDisjoint R i j r hij hcontra.1 hcontra.2
        · have hji : j < i := lt_of_le_of_ne hij (Ne.symm hne)
          exact rangesDisjoint R j i r hji hcontra.2 hcontra.1
      · rw [hout j (le_of_not_lt hj)] at hcontra
        have := hcontra.2.2
        omega
    · rw [hout i (le_of_not_lt hi)] at hcontra
      have := hcontra.1.2
      omega
  · intro pub
    rfl

/-- Claim C6: a chain of copy constraints `A ≡ B`, `B ≡ C` between three distinct
cells merges all three into one equivalence class — exactly what a direct
constraint `A ≡ C` would demand — and a table assigning unequal values to
`A` and `C` is reported as a single permutation violation covering the
whole class, not as separate pairwise violations. -/
theorem claim_C6 {F : Type} [CommRing F] [DecidableEq F]
    (a b c : Cell) (x y : F)
    (hab : a ≠ b) (hbc : b ≠ c) (hac : a ≠ c)
    (ha : a.col.kind = ColumnKind.Advice) (hb : b.col.kind = ColumnKind.Advice)
    (hc : c.col.kind = ColumnKind.Advice) (hxy : x ≠ y)
    (n : Nat) (pub : List F) :
    buildClasses [(a, b), (b, c)] = [[a, b, c]] ∧
    permViolations (⟨n, [(a, x), (b, x), (c, y)], []⟩ : AssignmentTable F) pub [(a, b), (b, c)]
      = [Violation.permutationViolation [a, b, c]] := by
  have h1 : unionCells ([] : List (List Cell)) a b = [[a, b]] := by
    simp [unionCells, findClass, List.find?, hab]
  have h2 : unionCells [[a, b]] b c = [[a, b, c]] := by
    simp [unionCells, findClass, List.find?, hab, hbc, hac,
      Ne.symm hab, Ne.symm hbc, Ne.symm hac]
  have hclasses : buildClasses [(a, b), (b, c)] = [[a, b, c]] := by
    show unionCells (unionCells [] a b) b c = [[a, b, c]]
    rw [h1, h2]
  refine ⟨hclasses, ?_⟩
  have hva : cellValue (⟨n, [(a, x), (b, x), (c, y)], []⟩ : AssignmentTable F) pub a
      = some x := by
    simp [cellValue, ha, lookupCell, List.find?]
  have hvb : cellValue (⟨n, [(a, x), (b, x), (c, y)], []⟩ : AssignmentTable F) pub b
      = some x := by
    simp [cellValue, hb, lookupCell, List.find?, beq_eq_false_iff_ne.mpr hab]
  have hvc : cellValue (⟨n, [(a, x), (b, x), (c, y)], []⟩ : AssignmentTable F) pub c
      = some y := by
    simp [cellValue, hc, lookupCell, List.find?, beq_eq_false_iff_ne.mpr hac,
      beq_eq_false_iff_ne.mpr hbc]
  rw [permViolations, hclasses]
  simp [classViolation, hva, hvb, hvc, Ne.symm hxy]

/-- Witness for C6: the chain applied at three concrete advice cells holding
the unequal integer values 0 and 1. -/
theorem claim_C6_witness :
    buildClasses [((⟨colA, 0⟩ : Cell), (⟨colB, 0⟩ : Cell)), (⟨colB, 0⟩, ⟨colC, 0⟩)]
      = [[⟨colA, 0⟩, ⟨colB, 0⟩, ⟨colC, 0⟩]] ∧
    permViolations
        (⟨16, [(⟨colA, 0⟩, (0 : ℤ)), (⟨colB, 0⟩, 0), (⟨colC, 0⟩, 1)], []⟩ : AssignmentTable ℤ)
        [] [(⟨colA, 0⟩, ⟨colB, 0⟩), (⟨colB, 0⟩, ⟨colC, 0⟩)]
      = [Violation.permutationViolation [⟨colA, 0⟩, ⟨colB, 0⟩, ⟨colC, 0⟩]] :=
  claim_C6 ⟨colA, 0⟩ ⟨colB, 0⟩ ⟨colC, 0⟩ (0 : ℤ) 1
    (by decide) (by decide) (by decide) rfl rfl rfl (by decide) 16 []

/-- Witness for C5: two single-operation regions of height 1 laid out from the
initial state. -/
theorem claim_C5_witness :
    (runRegions ([] : List ℤ)
        [fun _ => [RegionOp.enableSelector 0 0], fun _ => [RegionOp.enableSelector 0 0]]
        initState).regions
      = (List.range 2).map (fun i => (i * 1, 1)) :=
  ((claim_C5 (F := ℤ)).1 []
    [fun _ => [RegionOp.enableSelector 0 0], fun _ => [RegionOp.enableSelector 0 0]] 1
    (by
      intro f hf off
      simp only [List.mem_cons, List.not_mem_nil, or_false] at hf
      rcases hf with rfl | rfl <;> rfl)).1
